import Mathlib

/-!
Verification development for the `quarto-render` staging script
(`src/quarto-render.py`).  The script stages a document plus resource files
into a foreign Quarto project directory, runs `quarto render` there,
retrieves the produced output tree, and removes the staged files again.

The embedding below models, faithfully to the Python source:
  * Python's truthiness test on optional environment-variable strings and
    `str.strip(chars)` quote stripping (lines 40-54);
  * the environment/document validation stage before any mutation
    (lines 40-74), with an explicit trace of filesystem accesses;
  * the resource resolver building the `matches` set (lines 76-93);
  * the staging flow from the collision check through the `finally` cleanup
    (lines 95-201), as a function from an abstract run description to an
    outcome (final listing of the project directory, process exit code,
    whether cleanup ran, ...).  The external renderer is abstracted by its
    exit code and by whether it creates the declared output directory;
    points where the real code can raise (a failing `shutil.copy2`,
    a failing `os.chdir`/venv scan, a failing `subprocess.run`, a failing
    retrieval copy) are driven by explicit oracles in the run description;
  * `shutil.copytree(..., dirs_exist_ok=True)` on a tree model of the
    output directory, including its behaviour of collecting per-entry
    errors (kind mismatches) and raising at the end (lines 169-183).
-/

namespace QuartoRender

/-- Python truthiness of `os.environ.get(...)`: `None` and the empty string
are falsy, every other string is truthy (`if not project_dir_str`). -/
def pyFalsy : Option String → Bool
  | none => true
  | some s => s = ""

/-- Drop from the front of a character list every character contained in
`cs` (the front half of Python's `str.strip(chars)`). -/
def dropChars (cs : List Char) (l : List Char) : List Char :=
  l.dropWhile (fun c => c ∈ cs)

/-- Python's `str.strip(chars)` on a character list: remove every leading
and every trailing character that occurs in `cs`. -/
def stripChars (cs : List Char) (l : List Char) : List Char :=
  ((dropChars cs l).reverse.dropWhile (fun c => c ∈ cs)).reverse

/-- Python's `str.strip(chars)` on strings. -/
def pyStrip (cs : List Char) (s : String) : String :=
  ⟨stripChars cs s.data⟩

/-- Line 53/54 of the script: `value.strip('"').strip("'")` — first all
leading/trailing double quotes are removed, then all leading/trailing
single quotes of the result. -/
def stripQuotes (s : String) : String :=
  pyStrip ['\''] (pyStrip ['"'] s)

/-- The quote-stripping function described by the spec's words: a value
wrapped in one matching pair of single or double quotes has exactly that
wrapping pair removed; any other value is used as given.  Stated only to
be compared with `stripQuotes`, the function the code implements. -/
def specStripQuotes (s : String) : String :=
  let l := s.data
  if 2 ≤ l.length ∧
      ((l.head? = some '"' ∧ l.getLast? = some '"') ∨
       (l.head? = some '\'' ∧ l.getLast? = some '\'')) then
    ⟨(l.drop 1).dropLast⟩
  else s

/-- The characters after the last `/` of the input (`acc` accumulates the
current component). -/
def lastComponent : List Char → List Char → List Char
  | [], acc => acc
  | c :: rest, acc =>
    if c = '/' then lastComponent rest [] else lastComponent rest (acc ++ [c])

/-- `pathlib.Path(p).name`: the final path component of a (POSIX) file
path. -/
def baseName (p : String) : String :=
  ⟨lastComponent p.data []⟩

/-- Kind of a directory entry, as far as the script distinguishes them
(`is_file` versus directories). -/
inductive EntryKind where
  | file : EntryKind
  | dir : EntryKind
deriving DecidableEq, Repr

/-- Top-level contents of the project (target) directory: an association of
entry names (paths relative to the project directory) to entry kinds. -/
def Listing := List (String × EntryKind)

instance : DecidableEq Listing := by
  unfold Listing
  infer_instance

/-- Look an entry up by name (first binding wins; a real directory listing
has at most one binding per name). -/
def lookupEntry : Listing → String → Option EntryKind
  | [], _ => none
  | (m, k) :: rest, n => if m = n then some k else lookupEntry rest n

/-- Remove the entry named `n` (models `os.unlink` / `shutil.rmtree` of a
top-level entry). -/
def removeEntry : Listing → String → Listing
  | [], _ => []
  | (m, k) :: rest, n => if m = n then removeEntry rest n else (m, k) :: removeEntry rest n

/-- Create or overwrite the entry named `n` with kind `k` (models
`shutil.copy2` writing `project_dir / name`, or the renderer creating its
output directory). -/
def setEntry (L : Listing) (n : String) (k : EntryKind) : Listing :=
  (n, k) :: removeEntry L n

theorem lookupEntry_removeEntry (L : Listing) (n x : String) :
    lookupEntry (removeEntry L n) x = if x = n then none else lookupEntry L x := by
  induction L with
  | nil => simp [removeEntry, lookupEntry]
  | cons p rest ih =>
    obtain ⟨m, k⟩ := p
    by_cases hmn : m = n
    · subst hmn
      by_cases hxm : x = m
      · subst hxm
        simpa [removeEntry, lookupEntry] using ih
      · have hmx : ¬ m = x := fun h => hxm h.symm
        simp [removeEntry, lookupEntry, hxm, hmx, ih]
    · by_cases hmx : m = x
      · subst hmx
        simp [removeEntry, lookupEntry, hmn, fun h : m = n => hmn h]
      · simp [removeEntry, lookupEntry, hmn, hmx, ih]

theorem lookupEntry_setEntry (L : Listing) (n x : String) (k : EntryKind) :
    lookupEntry (setEntry L n k) x = if x = n then some k else lookupEntry L x := by
  by_cases hxn : x = n
  · subst hxn
    simp [setEntry, lookupEntry]
  · have hnx : ¬ n = x := fun h => hxn h.symm
    simp [setEntry, lookupEntry, hxn, hnx, lookupEntry_removeEntry]

/-! ## Resource resolver (lines 76-93)

`matches` is a Python `set` of resolved absolute path strings.  We model it
as a duplicate-free list built by `insertUnique` (a `set.add`); the
filesystem is abstracted by oracles for `glob.glob`, `Path.is_file` and
`Path.resolve`. -/

/-- `set.add`: insert `x` if it is not already present. -/
def insertUnique (l : List String) (x : String) : List String :=
  if x ∈ l then l else l ++ [x]

/-- Filesystem oracles used by the resolver. -/
structure ResolveEnv where
  /-- `glob.glob(pattern, recursive=True)`. -/
  globExpand : String → List String
  /-- `Path(match).is_file()`. -/
  isFile : String → Bool
  /-- `Path(p).resolve()`. -/
  resolve : String → String

/-- One iteration of the outer loop of lines 79-90: fold the matches of one
resource pattern into the accumulated set, keeping only regular files and
keying by resolved path. -/
def collectFromPattern (env : ResolveEnv) (acc : List String) (pat : String) :
    List String :=
  (env.globExpand pat).foldl
    (fun acc2 m => if env.isFile m then insertUnique acc2 (env.resolve m) else acc2)
    acc

/-- Lines 76-93: expand every resource pattern, then add the document's own
resolved path (`source_file` is already `Path(args.document).resolve()`, and
line 93 resolves it a second time). -/
def collectMatches (env : ResolveEnv) (resources : List String)
    (documentArg : String) : List String :=
  let sourceFile := env.resolve documentArg
  insertUnique (resources.foldl (collectFromPattern env) []) (env.resolve sourceFile)

theorem insertUnique_nodup (l : List String) (x : String) (h : l.Nodup) :
    (insertUnique l x).Nodup := by
  unfold insertUnique
  by_cases hx : x ∈ l
  · simpa [hx]
  · simp only [hx, if_false]
    rw [List.nodup_append]
    refine ⟨h, List.nodup_singleton x, fun a ha hmem => ?_⟩
    rw [List.mem_singleton] at hmem
    exact hx (hmem ▸ ha)

theorem insertUnique_mem (l : List String) (x : String) :
    x ∈ insertUnique l x := by
  unfold insertUnique
  by_cases hx : x ∈ l <;> simp [hx]

theorem collectFromPattern_nodup (env : ResolveEnv) (acc : List String)
    (pat : String) (h : acc.Nodup) : (collectFromPattern env acc pat).Nodup := by
  unfold collectFromPattern
  induction env.globExpand pat generalizing acc with
  | nil => simpa
  | cons m rest ih =>
    simp only [List.foldl_cons]
    by_cases hm : env.isFile m
    · exact ih _ (by simpa [hm] using insertUnique_nodup _ _ h)
    · simpa [hm] using ih _ h

theorem collectMatches_nodup (env : ResolveEnv) (resources : List String)
    (documentArg : String) : (collectMatches env resources documentArg).Nodup := by
  unfold collectMatches
  refine insertUnique_nodup _ _ ?_
  induction resources using List.reverseRecOn with
  | nil => simp
  | append_singleton rs r ih =>
    simpa using collectFromPattern_nodup env _ r ih

/-! ## Environment-variable and document validation stage (lines 39-74)

Modelled with an explicit trace of the filesystem accesses the stage
performs, so that "exits before touching the filesystem" is expressible. -/

/-- Result of the validation stage before any mutation. -/
structure PreludeResult where
  /-- `some c` when the stage called `sys.exit(c)`. -/
  exitCode : Option Nat
  /-- The error message printed on failure. -/
  errMsg : Option String
  /-- Trace of filesystem accesses performed, in order. -/
  fsAccesses : List String
  /-- The quote-stripped environment values, once computed (line 53-54). -/
  envValues : Option (String × String)
deriving DecidableEq, Repr

/-- Lines 39-74 of the script: read the two environment variables, fail on
falsy values, strip quotes, resolve and validate the document, check the
project directory.  `fsExists`/`fsIsFile` are oracles for `Path.exists` /
`Path.is_file` on the resolved document path, and `projectDirExists` for
line 72's check. -/
def runPrelude (envProject envOutput : Option String) (documentArg : String)
    (resolve : String → String) (fsExists fsIsFile : String → Bool)
    (projectDirExists : Bool) : PreludeResult :=
  if pyFalsy envProject then
    ⟨some 1, some "environment variable QUARTO_RENDER_PROJECT_DIR is not set", [], none⟩
  else if pyFalsy envOutput then
    ⟨some 1, some "environment variable QUARTO_RENDER_OUTPUT_DIR is not set", [], none⟩
  else
    let projectDirStr := stripQuotes (envProject.getD "")
    let outputDirStr := stripQuotes (envOutput.getD "")
    let sourceFile := resolve documentArg
    if ¬ fsExists sourceFile then
      ⟨some 1, some "file does not exist",
        ["resolve " ++ documentArg, "exists " ++ sourceFile],
        some (projectDirStr, outputDirStr)⟩
    else if ¬ fsIsFile sourceFile then
      ⟨some 1, some "not a file",
        ["resolve " ++ documentArg, "exists " ++ sourceFile, "is_file " ++ sourceFile],
        some (projectDirStr, outputDirStr)⟩
    else if ¬ projectDirExists then
      ⟨some 1, some "project directory does not exist",
        ["resolve " ++ documentArg, "exists " ++ sourceFile, "is_file " ++ sourceFile,
         "exists " ++ projectDirStr],
        some (projectDirStr, outputDirStr)⟩
    else
      ⟨none, none,
        ["resolve " ++ documentArg, "exists " ++ sourceFile, "is_file " ++ sourceFile,
         "exists " ++ projectDirStr],
        some (projectDirStr, outputDirStr)⟩

/-! ## Staging, render, retrieval and cleanup (lines 95-201)

The flow from the collision check to the `finally` block, as a function of
an abstract run description.  The renderer subprocess is abstracted by its
exit code and by whether it creates the declared output directory inside
the project directory; the places where the real code can raise an
exception are driven by oracles (`copyExc` for a failing `shutil.copy2`,
`preRenderExc` for a failure in `os.chdir`/the venv scan, `renderExc` for
`subprocess.run` itself raising, `retrieveExc` for a failing retrieval
copy).  `sys.exit(n)` raises `SystemExit`, which `except Exception` does
not catch but `finally` still runs for; an exception in the copy loop
(lines 106-111) happens before the `try` statement, so neither `except`
nor `finally` sees it. -/

/-- Description of one run of the staging flow. -/
structure StageInput where
  /-- The `matches` set of the script (resolved source paths), in iteration
  order. -/
  srcMatches : List String
  /-- Initial listing of the project (target) directory. -/
  target0 : Listing
  /-- `output_dir_str`: the declared output path relative to the project
  directory, used as a listing key. -/
  outName : String
  /-- Working directory captured before staging (`orig_dir`). -/
  origCwd : String
  /-- `shutil.copy2` raises for this source path. -/
  copyExc : String → Bool
  /-- An exception is raised inside the `try` before `subprocess.run`
  (a failing `os.chdir` or venv scan). -/
  preRenderExc : Bool
  /-- `subprocess.run` itself raises (e.g. the renderer binary is missing),
  so the renderer is never executed. -/
  renderExc : Bool
  /-- Exit code returned by the renderer subprocess. -/
  rendererExit : Nat
  /-- The renderer creates the declared output directory. -/
  rendererCreatesOutput : Bool
  /-- The retrieval copy back to the source directory raises. -/
  retrieveExc : Bool

/-- Lines 96-104: scan `matches` for a base name already present in the
project directory; the loop exits at the first collision, naming it. -/
def firstCollision : List String → Listing → Option String
  | [], _ => none
  | m :: rest, L =>
    if (lookupEntry L (baseName m)).isSome then some (baseName m)
    else firstCollision rest L

/-- Lines 106-111: copy each match into the project directory in order;
a raising `shutil.copy2` aborts the loop (third component `true`), leaving
the files copied so far in place.  Returns (sources copied, resulting
listing, whether an exception escaped). -/
def copyLoop (exc : String → Bool) :
    List String → Listing → List String → List String × Listing × Bool
  | [], L, copied => (copied, L, false)
  | m :: rest, L, copied =>
    if exc m then (copied, L, true)
    else copyLoop exc rest (setEntry L (baseName m) EntryKind.file) (copied ++ [m])

/-- The listing after all of `matches` has been copied. -/
def stageAll (ms : List String) (L : Listing) : Listing :=
  ms.foldl (fun acc m => setEntry acc (baseName m) EntryKind.file) L

/-- Lines 193-198: one iteration of the cleanup loop — delete the staged
entry only when it currently exists and is a regular file. -/
def cleanupStep (L : Listing) (m : String) : Listing :=
  match lookupEntry L (baseName m) with
  | some EntryKind.file => removeEntry L (baseName m)
  | _ => L

/-- The whole cleanup loop of the `finally` block. -/
def cleanupFiles (ms : List String) (L : Listing) : Listing :=
  ms.foldl cleanupStep L

/-- How control left the `try` block. -/
inductive TryExit where
  | normal : TryExit
  | exc : TryExit
  | sysExit : Nat → TryExit
deriving DecidableEq, Repr

/-- State captured when the `try` block is left. -/
structure TryRes where
  /-- How control left the block. -/
  exit : TryExit
  /-- Project-directory listing at that point. -/
  target : Listing
  /-- Whether the renderer subprocess was executed. -/
  invoked : Bool
  /-- Project-directory listing at the moment `subprocess.run` was called
  (meaningful only when `invoked` is true). -/
  snapshot : Listing
deriving DecidableEq

/-- Lines 123-185 after the output-directory removal: venv scan,
`subprocess.run`, exit-code check, output retrieval.  `t2` is the listing
after the stale output directory was removed. -/
def tryAfterRm (i : StageInput) (t2 : Listing) : TryRes :=
  if i.preRenderExc then ⟨TryExit.exc, t2, false, []⟩
  else if i.renderExc then ⟨TryExit.exc, t2, false, []⟩
  else
    let t3 := if i.rendererCreatesOutput then setEntry t2 i.outName EntryKind.dir else t2
    if i.rendererExit ≠ 0 then ⟨TryExit.sysExit i.rendererExit, t3, true, t2⟩
    else
      match lookupEntry t3 i.outName with
      | some EntryKind.dir =>
        if i.retrieveExc then ⟨TryExit.exc, t3, true, t2⟩
        else ⟨TryExit.normal, removeEntry t3 i.outName, true, t2⟩
      | some EntryKind.file => ⟨TryExit.exc, t3, true, t2⟩
      | none => ⟨TryExit.normal, t3, true, t2⟩

/-- The `try` block body (lines 113-185), starting from listing `t1` right
after the copy loop: `os.chdir(project_dir)`, removal of a pre-existing
output directory (117-121; `shutil.rmtree` raises if the entry is not a
directory), then `tryAfterRm`. -/
def tryBody (i : StageInput) (t1 : Listing) : TryRes :=
  match lookupEntry t1 i.outName with
  | some EntryKind.file => ⟨TryExit.exc, t1, false, []⟩
  | some EntryKind.dir => tryAfterRm i (removeEntry t1 i.outName)
  | none => tryAfterRm i t1

/-- Observable outcome of one run of the staging flow. -/
structure StageOutcome where
  /-- Final process exit code. -/
  exitCode : Nat
  /-- Final listing of the project directory. -/
  finalTarget : Listing
  /-- Working directory when the process terminates. -/
  finalCwd : String
  /-- Whether the `finally` cleanup block executed. -/
  cleanupRan : Bool
  /-- Source paths successfully copied into the project directory. -/
  copied : List String
  /-- Whether the renderer subprocess was executed. -/
  rendererInvoked : Bool
  /-- Project-directory listing when the renderer was invoked. -/
  targetAtInvoke : Listing
  /-- Base name reported in a collision error, if any. -/
  collidingName : Option String

/-- Process exit code produced by each way of leaving the `try` block:
an `Exception` is caught and mapped to `sys.exit(1)` (lines 187-189),
a `SystemExit` keeps its code, normal completion returns 0. -/
def exitCodeOf : TryExit → Nat
  | TryExit.normal => 0
  | TryExit.exc => 1
  | TryExit.sysExit c => c

/-- Lines 95-201: the staging flow.  The collision check runs before any
copy; the copy loop (106-111) runs before the `try`, so an exception there
skips both `except` and `finally` (the Python interpreter then exits with
code 1); every path through the `try` runs the `finally` block, which
removes the staged files still present as regular files and restores the
working directory. -/
def stagePhase (i : StageInput) : StageOutcome :=
  match firstCollision i.srcMatches i.target0 with
  | some name =>
    { exitCode := 1, finalTarget := i.target0, finalCwd := i.origCwd,
      cleanupRan := false, copied := [], rendererInvoked := false,
      targetAtInvoke := [], collidingName := some name }
  | none =>
    match copyLoop i.copyExc i.srcMatches i.target0 [] with
    | (copied, t1, true) =>
      { exitCode := 1, finalTarget := t1, finalCwd := i.origCwd,
        cleanupRan := false, copied := copied, rendererInvoked := false,
        targetAtInvoke := [], collidingName := none }
    | (copied, t1, false) =>
      let res := tryBody i t1
      { exitCode := exitCodeOf res.exit,
        finalTarget := cleanupFiles i.srcMatches res.target,
        finalCwd := i.origCwd, cleanupRan := true, copied := copied,
        rendererInvoked := res.invoked, targetAtInvoke := res.snapshot,
        collidingName := none }

/-! ## Output retrieval (lines 169-185)

`shutil.copytree(project_output_dir, dest_output_dir, dirs_exist_ok=True)`
on a tree model of the output directory.  `copytree` copies entry by
entry: a source file is written with `copy2` (overwriting a same-named
destination file, raising on a same-named destination directory), a source
directory recurses with `os.makedirs(..., exist_ok=True)` (raising when a
same-named destination file is in the way).  Per-entry errors are
collected and raised as one error after all entries were attempted. -/

mutual

/-- A node of the output tree: a regular file (with abstract content) or a
directory. -/
inductive FsTree where
  | file : Nat → FsTree
  | dir : FsForest → FsTree

/-- Contents of a directory: a name-keyed sequence of child nodes. -/
inductive FsForest where
  | nil : FsForest
  | cons : String → FsTree → FsForest → FsForest

end

theorem copyLoop_noexc (exc : String → Bool) (ms : List String)
    (h : ∀ m ∈ ms, exc m = false) (L : Listing) (copied : List String) :
    copyLoop exc ms L copied = (copied ++ ms, stageAll ms L, false) := by
  induction ms generalizing L copied with
  | nil => simp [copyLoop, stageAll]
  | cons m rest ih =>
    have hm : exc m = false := h m (List.mem_cons_self m rest)
    have hrest : ∀ x ∈ rest, exc x = false := fun x hx => h x (List.mem_cons_of_mem m hx)
    simp [copyLoop, hm, ih hrest, stageAll]

theorem stageAll_lookup (ms : List String) (L : Listing) (x : String) :
    lookupEntry (stageAll ms L) x =
      if x ∈ ms.map baseName then some EntryKind.file else lookupEntry L x := by
  induction ms generalizing L with
  | nil => simp [stageAll]
  | cons m rest ih =>
    simp only [stageAll, List.foldl_cons] at ih ⊢
    rw [ih]
    by_cases hx : x ∈ rest.map baseName
    · simp [hx]
    · by_cases hxm : x = baseName m
      · simp [hx, hxm, lookupEntry_setEntry]
      · simp [hx, hxm, lookupEntry_setEntry]

theorem cleanupFiles_lookup (ms : List String) (L : Listing) (x : String) :
    lookupEntry (cleanupFiles ms L) x =
      if x ∈ ms.map baseName ∧ lookupEntry L x = some EntryKind.file then none
      else lookupEntry L x := by
  induction ms generalizing L with
  | nil => simp [cleanupFiles]
  | cons m rest ih =>
    simp only [cleanupFiles, List.foldl_cons] at ih ⊢
    rw [ih]
    by_cases hxm : x = baseName m
    · subst hxm
      cases hL : lookupEntry L (baseName m) with
      | none => simp [cleanupStep, hL]
      | some k =>
        cases k with
        | file => simp [cleanupStep, hL, lookupEntry_removeEntry]
        | dir => simp [cleanupStep, hL]
    · have hstep : lookupEntry (cleanupStep L m) x = lookupEntry L x := by
        unfold cleanupStep
        cases hL : lookupEntry L (baseName m) with
        | none => rfl
        | some k =>
          cases k with
          | file => simp [lookupEntry_removeEntry, hxm]
          | dir => rfl
      rw [hstep]
      simp [hxm]

/-- After cleanup, no staged base name is present as a regular file. -/
theorem cleanupFiles_clears (ms : List String) (L : Listing) (m : String)
    (hm : m ∈ ms) :
    lookupEntry (cleanupFiles ms L) (baseName m) ≠ some EntryKind.file := by
  rw [cleanupFiles_lookup]
  by_cases hf : lookupEntry L (baseName m) = some EntryKind.file
  · simp [hf, List.mem_map_of_mem baseName hm]
  · have hcond : ¬ (baseName m ∈ ms.map baseName ∧
        lookupEntry L (baseName m) = some EntryKind.file) := fun h => hf h.2
    rw [if_neg hcond]
    exact hf

theorem firstCollision_eq_none (ms : List String) (L : Listing) :
    firstCollision ms L = none ↔ ∀ m ∈ ms, lookupEntry L (baseName m) = none := by
  induction ms with
  | nil => simp [firstCollision]
  | cons m rest ih =>
    by_cases hm : (lookupEntry L (baseName m)).isSome
    · simp only [firstCollision, hm, if_pos]
      constructor
      · intro h
        cases h
      · intro h
        rw [h m (List.mem_cons_self m rest)] at hm
        cases hm
    · simp only [firstCollision, hm, if_neg, Bool.false_eq_true, not_false_eq_true, ih]
      constructor
      · intro h x hx
        rcases List.mem_cons.mp hx with hx | hx
        · subst hx
          cases hL : lookupEntry L (baseName x) with
          | none => rfl
          | some k => rw [hL] at hm; cases hm rfl
        · exact h x hx
      · intro h x hx
        exact h x (List.mem_cons_of_mem m hx)

theorem firstCollision_eq_some (ms : List String) (L : Listing) (n : String)
    (h : firstCollision ms L = some n) : (lookupEntry L n).isSome := by
  induction ms with
  | nil => cases h
  | cons m rest ih =>
    by_cases hm : (lookupEntry L (baseName m)).isSome
    · simp only [firstCollision, hm, if_pos, Option.some.injEq] at h
      rw [← h]
      exact hm
    · simp only [firstCollision, hm, if_neg, Bool.false_eq_true, not_false_eq_true] at h
      exact ih h

/-! ## Lemmas about quote stripping -/

theorem dropWhile_of_forall_false (p : Char → Bool) (l : List Char)
    (h : ∀ c ∈ l, p c = false) : l.dropWhile p = l := by
  cases l with
  | nil => rfl
  | cons a t => simp [List.dropWhile_cons, h a (List.mem_cons_self a t)]

theorem stripChars_of_forall (cs : List Char) (l : List Char)
    (h : ∀ c ∈ l, c ∉ cs) : stripChars cs l = l := by
  unfold stripChars dropChars
  have h1 : List.dropWhile (fun c => decide (c ∈ cs)) l = l :=
    dropWhile_of_forall_false _ _ (fun c hc => by simp [h c hc])
  have h2 : List.dropWhile (fun c => decide (c ∈ cs)) l.reverse = l.reverse :=
    dropWhile_of_forall_false _ _ (fun c hc => by simp [h c (List.mem_reverse.mp hc)])
  rw [h1, h2, List.reverse_reverse]

theorem stripChars_cons_mem (cs : List Char) (c : Char) (m : List Char)
    (hc : c ∈ cs) : stripChars cs (c :: m) = stripChars cs m := by
  unfold stripChars dropChars
  rw [List.dropWhile_cons]
  simp [hc]

theorem stripChars_append_mem (cs : List Char) (c : Char) (m : List Char)
    (hc : c ∈ cs) : stripChars cs (m ++ [c]) = stripChars cs m := by
  unfold stripChars dropChars
  rw [List.dropWhile_append]
  cases hdw : (List.dropWhile (fun x => decide (x ∈ cs)) m).isEmpty with
  | true =>
    rw [List.isEmpty_iff] at hdw
    simp [hdw, List.dropWhile_cons, hc]
  | false =>
    simp only [Bool.false_eq_true, if_false]
    rw [List.reverse_append, List.reverse_singleton, List.singleton_append,
      List.dropWhile_cons]
    simp [hc]

/-- Stripping a matching wrapping pair whose interior has no stripped
characters removes exactly the wrapping pair. -/
theorem stripChars_wrap (cs : List Char) (c : Char) (l : List Char)
    (hc : c ∈ cs) (h : ∀ x ∈ l, x ∉ cs) :
    stripChars cs (c :: (l ++ [c])) = l := by
  rw [stripChars_cons_mem cs c _ hc, stripChars_append_mem cs c _ hc,
    stripChars_of_forall cs l h]

/-! ## Lemmas about the output-tree merge -/

/-- C10: during cleanup, a staged entry's target path is deleted only when
it currently exists and is a regular file — a directory now occupying a
staged name is left intact, a staged name that has disappeared stays
absent (the guard makes the loop total, nothing is raised), every staged
name present as a regular file is no longer a file afterwards, and names
outside the staged set are untouched. -/
theorem C10_cleanup_only_existing_files (ms : List String) (L : Listing) :
    (∀ n, lookupEntry L n = some EntryKind.dir →
      lookupEntry (cleanupFiles ms L) n = some EntryKind.dir) ∧
    (∀ n, lookupEntry L n = none → lookupEntry (cleanupFiles ms L) n = none) ∧
    (∀ m ∈ ms, lookupEntry (cleanupFiles ms L) (baseName m) ≠ some EntryKind.file) ∧
    (∀ n, n ∉ ms.map baseName → lookupEntry (cleanupFiles ms L) n = lookupEntry L n) := by
  refine ⟨?_, ?_, ?_, ?_⟩
  · intro n h
    rw [cleanupFiles_lookup]
    simp [h]
  · intro n h
    rw [cleanupFiles_lookup]
    simp [h]
  · intro m hm
    exact cleanupFiles_clears ms L m hm
  · intro n h
    rw [cleanupFiles_lookup]
    simp [h]

/-- Witness for C10 at a concrete cleanup run: a directory occupying the
staged name `a.txt` survives cleanup. -/
theorem C10_cleanup_only_existing_files_witness :
    lookupEntry (cleanupFiles ["/src/a.txt"] [("a.txt", EntryKind.dir)]) "a.txt"
      = some EntryKind.dir :=
  (C10_cleanup_only_existing_files ["/src/a.txt"] [("a.txt", EntryKind.dir)]).1
    "a.txt" (by decide)

/-! ## Claim C4 -/

/-- C4: if some staged base name already exists in the project directory,
the flow exits with code 1 before any copy: nothing was copied, the
listing is unchanged, and the error names a colliding file. -/
theorem C4_collision_aborts_unchanged (i : StageInput)
    (h : ∃ m ∈ i.srcMatches, (lookupEntry i.target0 (baseName m)).isSome) :
    (stagePhase i).exitCode = 1 ∧
    (stagePhase i).copied = [] ∧
    (stagePhase i).finalTarget = i.target0 ∧
    ∃ n, (stagePhase i).collidingName = some n ∧
      (lookupEntry i.target0 n).isSome := by
  have hcol : firstCollision i.srcMatches i.target0 ≠ none := by
    rw [Ne, firstCollision_eq_none]
    intro hall
    obtain ⟨m, hm, hsome⟩ := h
    rw [hall m hm] at hsome
    cases hsome
  cases hfc : firstCollision i.srcMatches i.target0 with
  | none => exact absurd hfc hcol
  | some n =>
    refine ⟨?_, ?_, ?_, n, ?_, firstCollision_eq_some _ _ n hfc⟩ <;>
      simp [stagePhase, hfc]

/-- A run whose document base name collides with an existing project file. -/
def c4input : StageInput :=
  { srcMatches := ["/home/u/doc.qmd"],
    target0 := [("doc.qmd", EntryKind.file), ("quarto.yml", EntryKind.file)],
    outName := "out", origCwd := "/home/u", copyExc := fun _ => false,
    preRenderExc := false, renderExc := false, rendererExit := 0,
    rendererCreatesOutput := true, retrieveExc := false }

/-- Witness for C4 at a concrete colliding run. -/
theorem C4_collision_aborts_unchanged_witness :
    (stagePhase c4input).exitCode = 1 ∧
    (stagePhase c4input).copied = [] ∧
    (stagePhase c4input).finalTarget = c4input.target0 ∧
    ∃ n, (stagePhase c4input).collidingName = some n ∧
      (lookupEntry c4input.target0 n).isSome :=
  C4_collision_aborts_unchanged c4input ⟨"/home/u/doc.qmd", by decide, by decide⟩

/-! ## Claim C7 -/

/-- When the renderer is reached, the snapshot taken at `subprocess.run`
is the listing `t2` handed to `tryAfterRm`. -/
theorem tryAfterRm_snapshot_none (i : StageInput) (t2 : Listing)
    (ht : lookupEntry t2 i.outName = none)
    (h : (tryAfterRm i t2).invoked = true) :
    lookupEntry (tryAfterRm i t2).snapshot i.outName = none := by
  cases hpre : i.preRenderExc with
  | true => simp [tryAfterRm, hpre] at h
  | false =>
    cases hrx : i.renderExc with
    | true => simp [tryAfterRm, hpre, hrx] at h
    | false =>
      by_cases hexit : i.rendererExit = 0
      · cases hcr : i.rendererCreatesOutput with
        | false =>
          cases hret : i.retrieveExc with
          | false => simp [tryAfterRm, hpre, hrx, hexit, hcr, hret, ht]
          | true => simp [tryAfterRm, hpre, hrx, hexit, hcr, hret, ht]
        | true =>
          cases hret : i.retrieveExc with
          | false =>
            simp [tryAfterRm, hpre, hrx, hexit, hcr, hret, lookupEntry_setEntry, ht]
          | true =>
            simp [tryAfterRm, hpre, hrx, hexit, hcr, hret, lookupEntry_setEntry, ht]
      · simp [tryAfterRm, hpre, hrx, hexit, ht]

/-- C7: every run that reaches the renderer invocation sees no entry at
the declared output path when `subprocess.run` is called — a pre-existing
output directory was removed beforehand (lines 117-121), so the renderer
never sees stale prior output. -/
theorem C7_no_stale_output_at_invocation (i : StageInput)
    (h : (stagePhase i).rendererInvoked = true) :
    lookupEntry (stagePhase i).targetAtInvoke i.outName = none := by
  cases hfc : firstCollision i.srcMatches i.target0 with
  | some n =>
    simp only [stagePhase, hfc] at h
    cases h
  | none =>
    rcases hcl : copyLoop i.copyExc i.srcMatches i.target0 [] with ⟨copied, t1, raised⟩
    cases raised with
    | true =>
      simp only [stagePhase, hfc, hcl] at h
      cases h
    | false =>
      simp only [stagePhase, hfc, hcl] at h ⊢
      cases hout : lookupEntry t1 i.outName with
      | none =>
        simp only [tryBody, hout] at h ⊢
        exact tryAfterRm_snapshot_none i t1 hout h
      | some k =>
        cases k with
        | file =>
          simp only [tryBody, hout] at h
          cases h
        | dir =>
          simp only [tryBody, hout] at h ⊢
          refine tryAfterRm_snapshot_none i _ ?_ h
          rw [lookupEntry_removeEntry]
          simp

/-- A run with a stale output directory in the project that reaches the
renderer. -/
def c7input : StageInput :=
  { srcMatches := ["/home/u/doc.qmd"],
    target0 := [("out", EntryKind.dir), ("quarto.yml", EntryKind.file)],
    outName := "out", origCwd := "/home/u", copyExc := fun _ => false,
    preRenderExc := false, renderExc := false, rendererExit := 0,
    rendererCreatesOutput := true, retrieveExc := false }

/-- Witness for C7: the stale `out` directory is gone at invocation time. -/
theorem C7_no_stale_output_at_invocation_witness :
    lookupEntry (stagePhase c7input).targetAtInvoke c7input.outName = none :=
  C7_no_stale_output_at_invocation c7input (by decide)

/-! ## Claim C9 -/

/-- C9: a required environment variable that is set but empty is treated
exactly as if it were missing — identical result, exit code 1 and no
filesystem access — and quote stripping is applied only after this check,
so a value consisting solely of quote characters passes it (and strips to
the empty string afterwards). -/
theorem C9_empty_env_like_missing :
    (∀ o d r fe ff pde, runPrelude (some "") o d r fe ff pde
        = runPrelude none o d r fe ff pde) ∧
    (∀ p d r fe ff pde, runPrelude p (some "") d r fe ff pde
        = runPrelude p none d r fe ff pde) ∧
    (∀ o d r fe ff pde, (runPrelude (some "") o d r fe ff pde).exitCode = some 1 ∧
        (runPrelude (some "") o d r fe ff pde).fsAccesses = []) ∧
    (∀ p d r fe ff pde, pyFalsy p = false →
        (runPrelude p (some "") d r fe ff pde).exitCode = some 1 ∧
        (runPrelude p (some "") d r fe ff pde).fsAccesses = []) ∧
    pyFalsy (some "\"\"") = false ∧
    (∀ d r fe ff pde,
        (runPrelude (some "\"\"") (some "''") d r fe ff pde).envValues
          = some ("", "")) := by
  refine ⟨?_, ?_, ?_, ?_, by decide, ?_⟩
  · intro o d r fe ff pde
    simp [runPrelude, pyFalsy]
  · intro p d r fe ff pde
    cases hp : pyFalsy p with
    | true => simp [runPrelude, hp]
    | false => simp [runPrelude, hp, pyFalsy]
  · intro o d r fe ff pde
    constructor <;> simp [runPrelude, pyFalsy]
  · intro p d r fe ff pde hp
    have h0 : pyFalsy (some "") = true := rfl
    constructor <;> simp [runPrelude, hp, h0]
  · intro d r fe ff pde
    have h1 : pyFalsy (some "\"\"") = false := by decide
    have h2 : pyFalsy (some "''") = false := by decide
    have h3 : stripQuotes "\"\"" = "" := by decide
    have h4 : stripQuotes "''" = "" := by decide
    simp only [runPrelude, h1, h2, Bool.false_eq_true, if_false, h3, h4]
    split_ifs <;> rfl

/-- Witness for C9 at concrete inputs. -/
theorem C9_empty_env_like_missing_witness :
    runPrelude (some "") (some "out") "d.qmd" id (fun _ => true) (fun _ => true) true
      = runPrelude none (some "out") "d.qmd" id (fun _ => true) (fun _ => true) true ∧
    (runPrelude (some "/proj") (some "") "d.qmd" id (fun _ => true) (fun _ => true)
        true).exitCode = some 1 :=
  ⟨C9_empty_env_like_missing.1 (some "out") "d.qmd" id _ _ true,
   (C9_empty_env_like_missing.2.2.2.1 (some "/proj") "d.qmd" id _ _ true
     (by decide)).1⟩

/-! ## Claim C5 -/

/-- C5: the staged set is keyed by resolved absolute path — a file reached
through two different resource patterns and also as the document itself
appears exactly once in `matches`, and the copy loop copies it exactly
once. -/
theorem C5_staged_set_deduplicated (env : ResolveEnv) (resources : List String)
    (documentArg : String) (p pa pb ma mb : String)
    (hpa : pa ∈ resources) (hpb : pb ∈ resources) (hab : pa ≠ pb)
    (hma : ma ∈ env.globExpand pa) (hmb : mb ∈ env.globExpand pb)
    (hfa : env.isFile ma = true) (hfb : env.isFile mb = true)
    (hra : env.resolve ma = p) (hrb : env.resolve mb = p)
    (hdoc : env.resolve (env.resolve documentArg) = p) :
    (collectMatches env resources documentArg).count p = 1 ∧
    ∀ L : Listing,
      ((copyLoop (fun _ => false) (collectMatches env resources documentArg)
        L []).1).count p = 1 := by
  have hmem : p ∈ collectMatches env resources documentArg := by
    unfold collectMatches
    rw [← hdoc]
    exact insertUnique_mem _ _
  have hcount : (collectMatches env resources documentArg).count p = 1 :=
    List.count_eq_one_of_mem (collectMatches_nodup env resources documentArg) hmem
  refine ⟨hcount, fun L => ?_⟩
  rw [copyLoop_noexc (fun _ => false) _ (fun _ _ => rfl) L []]
  simpa using hcount

/-- A resolver environment in which `/res/a.png` is reached through the
two distinct patterns `*.png` and `a*`, and the document also resolves to
it. -/
def c5env : ResolveEnv :=
  { globExpand := fun pat =>
      if pat = "*.png" then ["a.png"] else if pat = "a*" then ["a.png"] else [],
    isFile := fun _ => true,
    resolve := fun _ => "/res/a.png" }

/-- Witness for C5: the shared file appears exactly once and is copied
exactly once. -/
theorem C5_staged_set_deduplicated_witness :
    (collectMatches c5env ["*.png", "a*"] "a.png").count "/res/a.png" = 1 ∧
    ∀ L : Listing,
      ((copyLoop (fun _ => false) (collectMatches c5env ["*.png", "a*"] "a.png")
        L []).1).count "/res/a.png" = 1 :=
  C5_staged_set_deduplicated c5env ["*.png", "a*"] "a.png" "/res/a.png"
    "*.png" "a*" "a.png" "a.png" (by decide) (by decide) (by decide)
    (by decide) (by decide) (by decide) (by decide) (by decide) (by decide)
    (by decide)

/-! ## Claim C8 -/

/-- Two strings with equal character lists are equal. -/
theorem stringDataEq {a b : String} (h : a.data = b.data) : a = b := by
  cases a
  cases b
  exact congrArg String.mk h

/-- C8 counterexample: for the value `"'abc'"` — double quotes wrapping a
single-quoted inner value — the code strips both layers and yields `abc`,
while the claim says only the wrapping double quotes are removed and the
inner single quotes are kept (`'abc'`). -/
theorem C8_counterexample :
    stripQuotes "\"'abc'\"" = "abc" ∧
    specStripQuotes "\"'abc'\"" = "'abc'" ∧
    stripQuotes "\"'abc'\"" ≠ specStripQuotes "\"'abc'\"" :=
  ⟨by decide, by decide, by decide⟩

/-- C8 amended: line 53/54 removes all leading and trailing double-quote
characters and then all leading and trailing single-quote characters of
the result.  For a value whose own characters contain no quotes: a
matching single- or double-quoted wrapping is stripped, an unquoted value
is used as given, and a double-quoted value whose inner content is
single-quoted loses both layers of quotes. -/
theorem C8_strip_quotes_amended (s : String)
    (h : ∀ c ∈ s.data, c ≠ '"' ∧ c ≠ '\'') :
    stripQuotes ("\"" ++ s ++ "\"") = s ∧
    stripQuotes ("'" ++ s ++ "'") = s ∧
    stripQuotes s = s ∧
    stripQuotes ("\"'" ++ s ++ "'\"") = s := by
  have hq : ∀ c ∈ s.data, c ∉ (['"'] : List Char) := fun c hc => by
    simp [(h c hc).1]
  have hs : ∀ c ∈ s.data, c ∉ (['\''] : List Char) := fun c hc => by
    simp [(h c hc).2]
  have hinner : ∀ x ∈ '\'' :: (s.data ++ ['\'']), x ∉ (['"'] : List Char) := by
    intro x hx
    rcases List.mem_cons.mp hx with h1 | h2
    · subst h1
      decide
    · rcases List.mem_append.mp h2 with h3 | h4
      · exact hq x h3
      · rcases List.mem_cons.mp h4 with h5 | h6
        · subst h5
          decide
        · cases h6
  refine ⟨?_, ?_, ?_, ?_⟩
  · apply stringDataEq
    show stripChars ['\''] (stripChars ['"'] (("\"" ++ s ++ "\"").data)) = s.data
    have hd : ("\"" ++ s ++ "\"").data = '"' :: (s.data ++ ['"']) := by
      rw [String.data_append, String.data_append]
      simp
    rw [hd, stripChars_wrap ['"'] '"' s.data (by decide) hq,
      stripChars_of_forall _ _ hs]
  · apply stringDataEq
    show stripChars ['\''] (stripChars ['"'] (("'" ++ s ++ "'").data)) = s.data
    have hd : ("'" ++ s ++ "'").data = '\'' :: (s.data ++ ['\'']) := by
      rw [String.data_append, String.data_append]
      simp
    rw [hd, stripChars_of_forall ['"'] _ hinner,
      stripChars_wrap ['\''] '\'' s.data (by decide) hs]
  · apply stringDataEq
    show stripChars ['\''] (stripChars ['"'] s.data) = s.data
    rw [stripChars_of_forall _ _ hq, stripChars_of_forall _ _ hs]
  · apply stringDataEq
    show stripChars ['\''] (stripChars ['"'] (("\"'" ++ s ++ "'\"").data)) = s.data
    have hd : ("\"'" ++ s ++ "'\"").data
        = '"' :: (('\'' :: (s.data ++ ['\''])) ++ ['"']) := by
      rw [String.data_append, String.data_append]
      simp
    rw [hd, stripChars_wrap ['"'] '"' _ (by decide) hinner,
      stripChars_wrap ['\''] '\'' s.data (by decide) hs]

/-- Witness for C8 amended at the value `abc`. -/
theorem C8_strip_quotes_amended_witness :
    stripQuotes ("\"" ++ "abc" ++ "\"") = "abc" ∧
    stripQuotes ("'" ++ "abc" ++ "'") = "abc" ∧
    stripQuotes "abc" = "abc" ∧
    stripQuotes ("\"'" ++ "abc" ++ "'\"") = "abc" :=
  C8_strip_quotes_amended "abc" (by decide)

/-! ## Claim C1 -/

/-- A run in which the copy of the second staged file raises. -/
def c1input : StageInput :=
  { srcMatches := ["/src/a.txt", "/src/b.txt"],
    target0 := [("quarto.yml", EntryKind.file)],
    outName := "out", origCwd := "/home/u",
    copyExc := fun s => s == "/src/b.txt",
    preRenderExc := false, renderExc := false, rendererExit := 0,
    rendererCreatesOutput := false, retrieveExc := false }

/-- C1 counterexample: after `a.txt` has been copied, the copy of `b.txt`
raises.  The exception comes from the staging copy loop itself (lines
106-111), which runs before the `try`/`finally`, so it is not caught and
no removal of the already-copied files is attempted: the run terminates
with exit code 1, the cleanup loop never ran and `a.txt` is still in the
project directory — contradicting the claim that removal of all copied
files is attempted on every exception after the first copy. -/
theorem C1_counterexample :
    (stagePhase c1input).copied = ["/src/a.txt"] ∧
    (stagePhase c1input).exitCode = 1 ∧
    (stagePhase c1input).cleanupRan = false ∧
    lookupEntry (stagePhase c1input).finalTarget "a.txt" = some EntryKind.file :=
  ⟨by decide, by decide, by decide, by decide⟩

/-- C1 amended: once the staging copy loop has completed without raising,
any unexpected exception raised by a subsequent stage is caught at the
top level: the `finally` cleanup runs and afterwards no staged name
remains as a regular file, and every way the `try` block can leave by an
exception — an exception before or by the renderer invocation, the
`rmtree` of lines 117-121 hitting a staged file at the output path, or a
failing retrieval copy — maps to process exit code 1.  (An exception
raised during the copy loop itself, which runs before the `try`, is not
caught and no removal is attempted.) -/
theorem C1_later_exception_cleanup_amended (i : StageInput)
    (hcol : firstCollision i.srcMatches i.target0 = none)
    (hcopy : ∀ m ∈ i.srcMatches, i.copyExc m = false) :
    (stagePhase i).cleanupRan = true ∧
    (∀ m ∈ i.srcMatches,
      lookupEntry (stagePhase i).finalTarget (baseName m) ≠ some EntryKind.file) ∧
    ((tryBody i (stageAll i.srcMatches i.target0)).exit = TryExit.exc →
      (stagePhase i).exitCode = 1) ∧
    (i.preRenderExc = true ∨ i.renderExc = true → (stagePhase i).exitCode = 1) ∧
    (lookupEntry (stageAll i.srcMatches i.target0) i.outName
        = some EntryKind.file → (stagePhase i).exitCode = 1) ∧
    (i.preRenderExc = false → i.renderExc = false → i.rendererExit = 0 →
      i.rendererCreatesOutput = true → i.retrieveExc = true →
      (stagePhase i).exitCode = 1) := by
  have hcl := copyLoop_noexc i.copyExc i.srcMatches hcopy i.target0 []
  simp only [stagePhase, hcol, hcl]
  refine ⟨by trivial, ?_, ?_, ?_, ?_, ?_⟩
  · intro m hm
    exact cleanupFiles_clears _ _ m hm
  · intro hexc
    rw [hexc]
    rfl
  · intro hexc
    have he : (tryBody i (stageAll i.srcMatches i.target0)).exit
        = TryExit.exc := by
      cases hout : lookupEntry (stageAll i.srcMatches i.target0) i.outName with
      | some k =>
        cases k with
        | file => simp [tryBody, hout]
        | dir =>
          rcases hexc with hpre | hrx
          · simp [tryBody, hout, tryAfterRm, hpre]
          · cases hpre : i.preRenderExc <;>
              simp [tryBody, hout, tryAfterRm, hpre, hrx]
      | none =>
        rcases hexc with hpre | hrx
        · simp [tryBody, hout, tryAfterRm, hpre]
        · cases hpre : i.preRenderExc <;>
            simp [tryBody, hout, tryAfterRm, hpre, hrx]
    rw [he]
    rfl
  · intro hfile
    have he : (tryBody i (stageAll i.srcMatches i.target0)).exit
        = TryExit.exc := by
      simp [tryBody, hfile]
    rw [he]
    rfl
  · intro hpre hrx hexit0 hcr hret
    have he : (tryBody i (stageAll i.srcMatches i.target0)).exit
        = TryExit.exc := by
      cases hout : lookupEntry (stageAll i.srcMatches i.target0) i.outName with
      | some k =>
        cases k with
        | file => simp [tryBody, hout]
        | dir =>
          have hdir : lookupEntry (setEntry (removeEntry
              (stageAll i.srcMatches i.target0) i.outName) i.outName
              EntryKind.dir) i.outName = some EntryKind.dir := by
            rw [lookupEntry_setEntry, if_pos rfl]
          simp [tryBody, hout, tryAfterRm, hpre, hrx, hexit0, hcr, hret, hdir]
      | none =>
        have hdir : lookupEntry (setEntry (stageAll i.srcMatches i.target0)
            i.outName EntryKind.dir) i.outName = some EntryKind.dir := by
          rw [lookupEntry_setEntry, if_pos rfl]
        simp [tryBody, hout, tryAfterRm, hpre, hrx, hexit0, hcr, hret, hdir]
    rw [he]
    rfl

/-- A collision-free run in which the staging and the renderer succeed
but the retrieval copy of the produced output raises. -/
def c1winput : StageInput :=
  { srcMatches := ["/src/a.txt", "/src/b.txt"],
    target0 := [("quarto.yml", EntryKind.file)],
    outName := "out", origCwd := "/home/u", copyExc := fun _ => false,
    preRenderExc := false, renderExc := false, rendererExit := 0,
    rendererCreatesOutput := true, retrieveExc := true }

/-- Witness for C1 amended at a concrete run whose retrieval copy
raises. -/
theorem C1_later_exception_cleanup_amended_witness :
    (stagePhase c1winput).cleanupRan = true ∧
    (∀ m ∈ c1winput.srcMatches,
      lookupEntry (stagePhase c1winput).finalTarget (baseName m)
        ≠ some EntryKind.file) ∧
    ((tryBody c1winput (stageAll c1winput.srcMatches c1winput.target0)).exit
        = TryExit.exc → (stagePhase c1winput).exitCode = 1) ∧
    (c1winput.preRenderExc = true ∨ c1winput.renderExc = true →
      (stagePhase c1winput).exitCode = 1) ∧
    (lookupEntry (stageAll c1winput.srcMatches c1winput.target0)
        c1winput.outName = some EntryKind.file →
      (stagePhase c1winput).exitCode = 1) ∧
    (c1winput.preRenderExc = false → c1winput.renderExc = false →
      c1winput.rendererExit = 0 → c1winput.rendererCreatesOutput = true →
      c1winput.retrieveExc = true → (stagePhase c1winput).exitCode = 1) :=
  C1_later_exception_cleanup_amended c1winput (by decide) (by decide)

/-! ## Claim C2 -/

/-- C2: in every run that reaches the renderer (collision-free staging, no
exception up to and including the invocation, and no staged base name or
pre-existing file blocking the output-path removal) whose renderer exits
with a non-zero code, that code becomes the process exit code, every
staged base name is absent from the project directory afterwards, the
cleanup loop ran and the working directory is restored. -/
theorem C2_renderer_failure_propagates (i : StageInput)
    (hcol : firstCollision i.srcMatches i.target0 = none)
    (hcopy : ∀ m ∈ i.srcMatches, i.copyExc m = false)
    (hpre : i.preRenderExc = false) (hrx : i.renderExc = false)
    (hout : i.outName ∉ i.srcMatches.map baseName)
    (houtFile : lookupEntry i.target0 i.outName ≠ some EntryKind.file)
    (hN : i.rendererExit ≠ 0) :
    (stagePhase i).rendererInvoked = true ∧
    (stagePhase i).exitCode = i.rendererExit ∧
    (∀ m ∈ i.srcMatches,
      lookupEntry (stagePhase i).finalTarget (baseName m) = none) ∧
    (stagePhase i).cleanupRan = true ∧
    (stagePhase i).finalCwd = i.origCwd := by
  have hcl := copyLoop_noexc i.copyExc i.srcMatches hcopy i.target0 []
  have hlook1 : lookupEntry (stageAll i.srcMatches i.target0) i.outName
      = lookupEntry i.target0 i.outName := by
    rw [stageAll_lookup]
    simp [hout]
  have hstaged : ∀ m ∈ i.srcMatches,
      lookupEntry (stageAll i.srcMatches i.target0) (baseName m)
        = some EntryKind.file := by
    intro m hm
    rw [stageAll_lookup]
    simp [List.mem_map_of_mem baseName hm]
  have hbm : ∀ m ∈ i.srcMatches, ¬ baseName m = i.outName := by
    intro m hm he
    exact hout (he ▸ List.mem_map_of_mem baseName hm)
  -- the final listing inside the `try` on the non-zero-exit path
  have hfinal : ∀ t2 : Listing,
      (∀ m ∈ i.srcMatches, lookupEntry t2 (baseName m) = some EntryKind.file) →
      ∀ m ∈ i.srcMatches,
        lookupEntry (cleanupFiles i.srcMatches
          (if i.rendererCreatesOutput then setEntry t2 i.outName EntryKind.dir
           else t2)) (baseName m) = none := by
    intro t2 ht2 m hm
    have hkeep : lookupEntry
        (if i.rendererCreatesOutput then setEntry t2 i.outName EntryKind.dir
         else t2) (baseName m) = some EntryKind.file := by
      cases i.rendererCreatesOutput with
      | true => simpa [lookupEntry_setEntry, hbm m hm] using ht2 m hm
      | false => simpa using ht2 m hm
    rw [cleanupFiles_lookup]
    simp [List.mem_map_of_mem baseName hm, hkeep]
  simp only [stagePhase, hcol, hcl]
  cases hlk : lookupEntry (stageAll i.srcMatches i.target0) i.outName with
  | some k =>
    cases k with
    | file => exact absurd (hlook1 ▸ hlk) houtFile
    | dir =>
      simp only [tryBody, hlk, tryAfterRm, hpre, hrx, Bool.false_eq_true,
        if_false, if_neg, hN, ite_not]
      refine ⟨by simp [hN], by simp [hN, exitCodeOf], ?_, by trivial, by trivial⟩
      · intro m hm
        have ht2 : ∀ x ∈ i.srcMatches,
            lookupEntry (removeEntry (stageAll i.srcMatches i.target0) i.outName)
              (baseName x) = some EntryKind.file := by
          intro x hx
          rw [lookupEntry_removeEntry, if_neg (hbm x hx)]
          exact hstaged x hx
        have := hfinal _ ht2 m hm
        simpa [hN] using this
  | none =>
    simp only [tryBody, hlk, tryAfterRm, hpre, hrx, Bool.false_eq_true,
      if_false, if_neg, hN, ite_not]
    refine ⟨by simp [hN], by simp [hN, exitCodeOf], ?_, by trivial, by trivial⟩
    · intro m hm
      have := hfinal _ hstaged m hm
      simpa [hN] using this

/-- A collision-free run whose renderer exits with code 3. -/
def c2input : StageInput :=
  { srcMatches := ["/src/doc.qmd", "/src/img.png"],
    target0 := [("quarto.yml", EntryKind.file)],
    outName := "out", origCwd := "/home/u", copyExc := fun _ => false,
    preRenderExc := false, renderExc := false, rendererExit := 3,
    rendererCreatesOutput := true, retrieveExc := false }

/-- Witness for C2: renderer exit code 3 becomes the process exit code and
the staged files are removed. -/
theorem C2_renderer_failure_propagates_witness :
    (stagePhase c2input).rendererInvoked = true ∧
    (stagePhase c2input).exitCode = c2input.rendererExit ∧
    (∀ m ∈ c2input.srcMatches,
      lookupEntry (stagePhase c2input).finalTarget (baseName m) = none) ∧
    (stagePhase c2input).cleanupRan = true ∧
    (stagePhase c2input).finalCwd = c2input.origCwd :=
  C2_renderer_failure_propagates c2input (by decide) (by decide) (by decide)
    (by decide) (by decide) (by decide) (by decide)

/-! ## Claim C3 -/

/-- A fully successful run against a project directory that already holds
a directory at the declared output path. -/
def c3input : StageInput :=
  { srcMatches := ["/src/doc.qmd"],
    target0 := [("out", EntryKind.dir), ("quarto.yml", EntryKind.file)],
    outName := "out", origCwd := "/home/u", copyExc := fun _ => false,
    preRenderExc := false, renderExc := false, rendererExit := 0,
    rendererCreatesOutput := false, retrieveExc := false }

/-- C3 counterexample: the project directory starts with a pre-existing
directory at the declared output path `out`; the run succeeds (exit code
0) and the renderer writes nothing, yet afterwards `out` is gone — it was
deleted by lines 117-121 and never restored.  The final listing therefore
does not equal the initial one, although the claim asserts this holds
even with a pre-existing output directory. -/
theorem C3_counterexample :
    (stagePhase c3input).exitCode = 0 ∧
    lookupEntry c3input.target0 "out" = some EntryKind.dir ∧
    lookupEntry (stagePhase c3input).finalTarget "out" = none :=
  ⟨by decide, by decide, by decide⟩

/-- C3 amended: provided the project directory holds no entry at the
declared output path before the run and the staging copy loop does not
raise, the final listing agrees with the initial one on every name other
than the output path, and at the output path the only possible residue is
the output directory written by the renderer itself (left behind when
retrieval was skipped or failed).  A pre-existing entry at the output
path, by contrast, is deleted and not restored (see the counterexample). -/
theorem C3_target_restored_amended (i : StageInput)
    (hpre0 : lookupEntry i.target0 i.outName = none)
    (hcopy : ∀ m ∈ i.srcMatches, i.copyExc m = false) :
    (∀ n, n ≠ i.outName →
      lookupEntry (stagePhase i).finalTarget n = lookupEntry i.target0 n) ∧
    (lookupEntry (stagePhase i).finalTarget i.outName = none ∨
      (i.rendererCreatesOutput = true ∧
        lookupEntry (stagePhase i).finalTarget i.outName
          = some EntryKind.dir)) := by
  cases hfc : firstCollision i.srcMatches i.target0 with
  | some c =>
    refine ⟨fun n hn => ?_, ?_⟩
    · simp [stagePhase, hfc]
    · simp only [stagePhase, hfc]
      exact Or.inl hpre0
  | none =>
    have hno : ∀ m ∈ i.srcMatches, lookupEntry i.target0 (baseName m) = none :=
      (firstCollision_eq_none _ _).mp hfc
    have hnomem : ∀ n, n ∈ i.srcMatches.map baseName →
        lookupEntry i.target0 n = none := by
      intro n hn
      obtain ⟨m, hm, hbn⟩ := List.mem_map.mp hn
      rw [← hbn]
      exact hno m hm
    have hcl := copyLoop_noexc i.copyExc i.srcMatches hcopy i.target0 []
    have hgen : ∀ t_end : Listing,
        (∀ n, n ≠ i.outName →
          lookupEntry t_end n
            = lookupEntry (stageAll i.srcMatches i.target0) n) →
        ∀ n, n ≠ i.outName →
          lookupEntry (cleanupFiles i.srcMatches t_end) n
            = lookupEntry i.target0 n := by
      intro t_end hagree n hn
      rw [cleanupFiles_lookup, hagree n hn]
      simp only [stageAll_lookup]
      by_cases hmem : n ∈ i.srcMatches.map baseName
      · simp only [hmem, if_true, true_and]
        exact (hnomem n hmem).symm
      · simp [hmem]
    have hfin : ∀ t_end : Listing,
        (lookupEntry t_end i.outName = none ∨
          (i.outName ∈ i.srcMatches.map baseName ∧
            lookupEntry t_end i.outName = some EntryKind.file)) →
        lookupEntry (cleanupFiles i.srcMatches t_end) i.outName = none := by
      intro t_end hval
      rw [cleanupFiles_lookup]
      rcases hval with hv | ⟨hmem, hv⟩
      · simp [hv]
      · simp [hv, hmem]
    have hfinDir : ∀ t_end : Listing,
        lookupEntry t_end i.outName = some EntryKind.dir →
        lookupEntry (cleanupFiles i.srcMatches t_end) i.outName
          = some EntryKind.dir := by
      intro t_end hv
      rw [cleanupFiles_lookup]
      simp [hv]
    simp only [stagePhase, hfc, hcl]
    cases hlk : lookupEntry (stageAll i.srcMatches i.target0) i.outName with
    | some k =>
      cases k with
      | dir =>
        rw [stageAll_lookup] at hlk
        by_cases hmem : i.outName ∈ i.srcMatches.map baseName
        · simp [hmem] at hlk
        · rw [if_neg hmem, hpre0] at hlk
          cases hlk
      | file =>
        have hmem : i.outName ∈ i.srcMatches.map baseName := by
          by_contra hmem
          rw [stageAll_lookup, if_neg hmem, hpre0] at hlk
          cases hlk
        have htb : tryBody i (stageAll i.srcMatches i.target0)
            = ⟨TryExit.exc, stageAll i.srcMatches i.target0, false, []⟩ := by
          simp [tryBody, hlk]
        rw [htb]
        exact ⟨hgen _ (fun n hn => rfl), Or.inl (hfin _ (Or.inr ⟨hmem, hlk⟩))⟩
    | none =>
      have htb0 : tryBody i (stageAll i.srcMatches i.target0)
          = tryAfterRm i (stageAll i.srcMatches i.target0) := by
        simp [tryBody, hlk]
      rw [htb0]
      cases hpreB : i.preRenderExc with
      | true =>
        have hta : tryAfterRm i (stageAll i.srcMatches i.target0)
            = ⟨TryExit.exc, stageAll i.srcMatches i.target0, false, []⟩ := by
          simp [tryAfterRm, hpreB]
        rw [hta]
        exact ⟨hgen _ (fun n hn => rfl), Or.inl (hfin _ (Or.inl hlk))⟩
      | false =>
        cases hrxB : i.renderExc with
        | true =>
          have hta : tryAfterRm i (stageAll i.srcMatches i.target0)
              = ⟨TryExit.exc, stageAll i.srcMatches i.target0, false, []⟩ := by
            simp [tryAfterRm, hpreB, hrxB]
          rw [hta]
          exact ⟨hgen _ (fun n hn => rfl), Or.inl (hfin _ (Or.inl hlk))⟩
        | false =>
          cases hcrB : i.rendererCreatesOutput with
          | false =>
            by_cases hexitB : i.rendererExit = 0
            · have hta : tryAfterRm i (stageAll i.srcMatches i.target0)
                  = ⟨TryExit.normal, stageAll i.srcMatches i.target0, true,
                    stageAll i.srcMatches i.target0⟩ := by
                simp [tryAfterRm, hpreB, hrxB, hcrB, hexitB, hlk]
              rw [hta]
              exact ⟨hgen _ (fun n hn => rfl), Or.inl (hfin _ (Or.inl hlk))⟩
            · have hta : tryAfterRm i (stageAll i.srcMatches i.target0)
                  = ⟨TryExit.sysExit i.rendererExit,
                    stageAll i.srcMatches i.target0, true,
                    stageAll i.srcMatches i.target0⟩ := by
                simp [tryAfterRm, hpreB, hrxB, hcrB, hexitB]
              rw [hta]
              exact ⟨hgen _ (fun n hn => rfl), Or.inl (hfin _ (Or.inl hlk))⟩
          | true =>
            have hagree : ∀ n, n ≠ i.outName →
                lookupEntry (setEntry (stageAll i.srcMatches i.target0)
                  i.outName EntryKind.dir) n
                  = lookupEntry (stageAll i.srcMatches i.target0) n := by
              intro n hn
              rw [lookupEntry_setEntry, if_neg hn]
            have hdir : lookupEntry (setEntry (stageAll i.srcMatches i.target0)
                i.outName EntryKind.dir) i.outName = some EntryKind.dir := by
              rw [lookupEntry_setEntry, if_pos rfl]
            by_cases hexitB : i.rendererExit = 0
            · cases hretB : i.retrieveExc with
              | true =>
                have hta : tryAfterRm i (stageAll i.srcMatches i.target0)
                    = ⟨TryExit.exc,
                      setEntry (stageAll i.srcMatches i.target0) i.outName
                        EntryKind.dir, true,
                      stageAll i.srcMatches i.target0⟩ := by
                  simp [tryAfterRm, hpreB, hrxB, hcrB, hexitB, hretB, hdir]
                rw [hta]
                exact ⟨hgen _ hagree, Or.inr ⟨rfl, hfinDir _ hdir⟩⟩
              | false =>
                have hagree2 : ∀ n, n ≠ i.outName →
                    lookupEntry (removeEntry (setEntry
                      (stageAll i.srcMatches i.target0) i.outName EntryKind.dir)
                      i.outName) n
                      = lookupEntry (stageAll i.srcMatches i.target0) n := by
                  intro n hn
                  rw [lookupEntry_removeEntry, if_neg hn]
                  exact hagree n hn
                have hnone : lookupEntry (removeEntry (setEntry
                    (stageAll i.srcMatches i.target0) i.outName EntryKind.dir)
                    i.outName) i.outName = none := by
                  rw [lookupEntry_removeEntry, if_pos rfl]
                have hta : tryAfterRm i (stageAll i.srcMatches i.target0)
                    = ⟨TryExit.normal,
                      removeEntry (setEntry (stageAll i.srcMatches i.target0)
                        i.outName EntryKind.dir) i.outName, true,
                      stageAll i.srcMatches i.target0⟩ := by
                  simp [tryAfterRm, hpreB, hrxB, hcrB, hexitB, hretB, hdir]
                rw [hta]
                exact ⟨hgen _ hagree2, Or.inl (hfin _ (Or.inl hnone))⟩
            · have hta : tryAfterRm i (stageAll i.srcMatches i.target0)
                  = ⟨TryExit.sysExit i.rendererExit,
                    setEntry (stageAll i.srcMatches i.target0) i.outName
                      EntryKind.dir, true,
                    stageAll i.srcMatches i.target0⟩ := by
                simp [tryAfterRm, hpreB, hrxB, hcrB, hexitB]
              rw [hta]
              exact ⟨hgen _ hagree, Or.inr ⟨rfl, hfinDir _ hdir⟩⟩

/-- A collision-free fully successful run with no pre-existing output
entry. -/
def c3winput : StageInput :=
  { srcMatches := ["/src/doc.qmd", "/src/img.png"],
    target0 := [("quarto.yml", EntryKind.file)],
    outName := "out", origCwd := "/home/u", copyExc := fun _ => false,
    preRenderExc := false, renderExc := false, rendererExit := 0,
    rendererCreatesOutput := true, retrieveExc := false }

/-- Witness for C3 amended at a concrete successful run. -/
theorem C3_target_restored_amended_witness :
    (∀ n, n ≠ c3winput.outName →
      lookupEntry (stagePhase c3winput).finalTarget n
        = lookupEntry c3winput.target0 n) ∧
    (lookupEntry (stagePhase c3winput).finalTarget c3winput.outName = none ∨
      (c3winput.rendererCreatesOutput = true ∧
        lookupEntry (stagePhase c3winput).finalTarget c3winput.outName
          = some EntryKind.dir)) :=
  C3_target_restored_amended c3winput (by decide) (by decide)

/-! ## Claim C6 -/

end QuartoRender
